import Mathlib

/-!
Shallow embedding of the TinyWebServer-CPP17 HTTP connection pipeline
(src/http/http_conn.cpp, src/timer/lst_timer.cpp) and proofs about the
claims of the natural-language specification.

C strings are modelled as `List Char`; machine `size_t` arithmetic is
modelled as `Nat` with explicit `% 2^64` where the source can wrap.
-/

namespace TinyWebServer

/-- The NUL character the C code writes in place to terminate strings. -/
def nulChar : Char := Char.ofNat 0

/-- C strings modelled as lists of characters (no embedded terminator). -/
abbrev Str := List Char

/-- `HttpConnection::kFileNameLen`. -/
def kFileNameLen : Nat := 200

/-- `HttpConnection::kReadBufferSize`. -/
def kReadBufferSize : Nat := 2048

/-- `HttpConnection::kWriteBufferSize`. -/
def kWriteBufferSize : Nat := 1024

/-- `HttpConnection::Method` (the source declares more verbs; only these two
are ever produced by the parser). -/
inductive Method where
  | kGet
  | kPost
  | kHead
  | kPut
  | kDelete
  | kTrace
  | kOptions
  | kConnect
  | kPatch
deriving DecidableEq, Repr

/-- `HttpConnection::CheckState`. -/
inductive CheckState where
  | kRequestLine
  | kHeader
  | kContent
deriving DecidableEq, Repr

/-- `HttpConnection::HttpCode`. -/
inductive HttpCode where
  | kNoRequest
  | kGetRequest
  | kBadRequest
  | kNoResource
  | kForbiddenRequest
  | kFileRequest
  | kInternalError
  | kClosedConnection
deriving DecidableEq, Repr

/-- `HttpConnection::LineStatus`. -/
inductive LineStatus where
  | kOk
  | kBad
  | kOpen
deriving DecidableEq, Repr

/-- `kOk200Title`. -/
def kOk200Title : Str := "OK".data

/-- `kError400Title`. -/
def kError400Title : Str := "Bad Request".data

/-- `kError400Form`. -/
def kError400Form : Str :=
  "Your request has bad syntax or is inherently impossible to satisfy.\n".data

/-- `kError403Title`. -/
def kError403Title : Str := "Forbidden".data

/-- `kError403Form`. -/
def kError403Form : Str :=
  "You do not have permission to get file from this server.\n".data

/-- `kError404Title`. -/
def kError404Title : Str := "Not Found".data

/-- `kError404Form`. -/
def kError404Form : Str :=
  "The requested file was not found on this server.\n".data

/-- `kError500Title`. -/
def kError500Title : Str := "Internal Error".data

/-- `kError500Form`. -/
def kError500Form : Str :=
  "There was an unusual problem serving the request file.\n".data

/-- ASCII lowering, as used implicitly by `strcasecmp`/`strncasecmp`. -/
def asciiLower (c : Char) : Char :=
  if 'A' ≤ c ∧ c ≤ 'Z' then Char.ofNat (c.toNat + 32) else c

/-- Case-insensitive equality of two modelled C strings
(`strcasecmp(a, b) == 0`). -/
def ciEq (a b : Str) : Bool :=
  a.map asciiLower == b.map asciiLower

/-- Decimal digits of a natural number (`vsnprintf` with `%d` on the
non-negative values the source passes). -/
def natToStr (n : Nat) : Str := (Nat.repr n).data

/-- Write-buffer state of a connection: `write_idx_` and the formatted
bytes written so far (`write_buf_[0 .. write_idx_)`). -/
structure WState where
  writeIdx : Nat
  writeBuf : Str
deriving DecidableEq, Repr

/-- The write-buffer state right after `HttpConnection::init()`. -/
def initWState : WState := ⟨0, []⟩

/-- `HttpConnection::AddResponse`.  The `vsnprintf` call is modelled by
passing the already-formatted string `s`; its return value is `s.length`
(truncation by `vsnprintf` only happens in the branch that returns false,
where the advanced state is discarded, so modelling the buffer as the
untruncated prefix written so far is exact for the states the code keeps). -/
def AddResponse (s : Str) (w : WState) : Bool × WState :=
  if w.writeIdx ≥ kWriteBufferSize then (false, w)
  else if s.length ≥ kWriteBufferSize - 1 - w.writeIdx then (false, w)
  else (true, ⟨w.writeIdx + s.length, w.writeBuf ++ s⟩)

/-- `HttpConnection::AddStatusLine` (`"%s %d %s\r\n"` with `"HTTP/1.1"`). -/
def AddStatusLine (status : Nat) (title : Str) (w : WState) : Bool × WState :=
  AddResponse ("HTTP/1.1 ".data ++ natToStr status ++ [' '] ++ title ++ "\r\n".data) w

/-- `HttpConnection::AddContentLength` (`"Content-Length:%d\r\n"`). -/
def AddContentLength (n : Nat) (w : WState) : Bool × WState :=
  AddResponse ("Content-Length:".data ++ natToStr n ++ "\r\n".data) w

/-- `HttpConnection::AddLinger` (`"Connection:%s\r\n"`). -/
def AddLinger (linger : Bool) (w : WState) : Bool × WState :=
  AddResponse ("Connection:".data ++
    (if linger then "keep-alive".data else "close".data) ++ "\r\n".data) w

/-- `HttpConnection::AddBlankLine`. -/
def AddBlankLine (w : WState) : Bool × WState :=
  AddResponse "\r\n".data w

/-- `HttpConnection::AddContent`. -/
def AddContent (s : Str) (w : WState) : Bool × WState :=
  AddResponse s w

/-- `HttpConnection::AddHeaders`: `AddContentLength && AddLinger &&
AddBlankLine` with C short-circuit evaluation. -/
def AddHeaders (linger : Bool) (n : Nat) (w : WState) : Bool × WState :=
  let r1 := AddContentLength n w
  if r1.1 then
    let r2 := AddLinger linger r1.2
    if r2.1 then AddBlankLine r2.2 else (false, r2.2)
  else (false, r1.2)

/-- Gather-vector state set up by `HttpConnection::ProcessWrite`:
`iov_[0].iov_len`, `iov_[1].iov_len`, `iov_count_`, `bytes_to_send_`. -/
structure IovState where
  iovLen0 : Nat
  iovLen1 : Nat
  iovCount : Nat
  bytesToSend : Int
deriving DecidableEq, Repr

/-- `HttpConnection::ProcessWrite`.  `none` models `return false`
(the caller then calls `close_conn()`); `some` models `return true` with
the resulting write-buffer and gather-vector state.  `prevIov1` is the
value `iov_[1].iov_len` holds on entry (0 for a fresh connection; the
tail of the function leaves it untouched).  The Boolean results of
`AddStatusLine`/`AddHeaders` are discarded exactly as in the source.
Note the `kFileRequest` zero-size branch falls through into
`default: return false` (there is no `break`). -/
def ProcessWrite (ret : HttpCode) (linger : Bool) (fileSize : Nat)
    (w : WState) (prevIov1 : Nat) : Option (WState × IovState) :=
  let tailOk : WState → Option (WState × IovState) := fun w3 =>
    some (w3, ⟨w3.writeIdx, prevIov1, 1, (w3.writeIdx : Int)⟩)
  match ret with
  | .kInternalError =>
    let w1 := (AddStatusLine 500 kError500Title w).2
    let w2 := (AddHeaders linger kError500Form.length w1).2
    let r3 := AddContent kError500Form w2
    if r3.1 then tailOk r3.2 else none
  | .kBadRequest =>
    let w1 := (AddStatusLine 404 kError404Title w).2
    let w2 := (AddHeaders linger kError404Form.length w1).2
    let r3 := AddContent kError404Form w2
    if r3.1 then tailOk r3.2 else none
  | .kForbiddenRequest =>
    let w1 := (AddStatusLine 403 kError403Title w).2
    let w2 := (AddHeaders linger kError403Form.length w1).2
    let r3 := AddContent kError403Form w2
    if r3.1 then tailOk r3.2 else none
  | .kFileRequest =>
    let w1 := (AddStatusLine 200 kOk200Title w).2
    if fileSize ≠ 0 then
      let w2 := (AddHeaders linger fileSize w1).2
      some (w2, ⟨w2.writeIdx, fileSize, 2, (w2.writeIdx : Int) + (fileSize : Int)⟩)
    else
      none
  | _ => none

/-- The status line of a formatted response buffer (bytes before the
first CR). -/
def statusLineOf (buf : Str) : Str :=
  buf.takeWhile (fun c => c != '\r')

/-- `stat` result fields the handler inspects: `st_size`,
`st_mode & S_IROTH`, `S_ISDIR(st_mode)`. -/
structure FileStat where
  stSize : Nat
  worldReadable : Bool
  isDirectory : Bool
deriving DecidableEq, Repr

/-- The file-resolution tail of `HttpConnection::DoRequest`
(lines 458-468): `stat` failure, other-read bit, directory check. -/
def fileResolutionCode (st : Option FileStat) : HttpCode :=
  match st with
  | none => .kNoResource
  | some s =>
    if s.worldReadable = false then .kForbiddenRequest
    else if s.isDirectory then .kBadRequest
    else .kFileRequest

/-- Parse state of one connection (the fields of `HttpConnection` the
incremental parser reads and writes).  `url_`, `version_`, `host_` and
`string_` are pointers into buffers in the source; they are modelled as
the strings they point at. -/
structure Conn where
  readBuf : Str
  readIdx : Nat
  checkedIdx : Nat
  startLine : Nat
  checkState : CheckState
  method : Method
  cgi : Nat
  url : Str
  version : Str
  host : Str
  linger : Bool
  contentLength : Nat
  bodyStr : Str
  fileSize : Nat
deriving Repr

/-- The connection state established by `HttpConnection::init()`:
all cursors zero, state `kRequestLine`, read buffer zero-filled. -/
def connInit : Conn :=
  ⟨List.replicate kReadBufferSize nulChar, 0, 0, 0, .kRequestLine,
   .kGet, 0, [], [], [], false, 0, [], 0⟩

/-- Overwrite `buf` starting at `idx` with `data`
(what a successful `recv` into `&read_buf_[read_idx_]` does). -/
def recvWrite (buf : Str) (idx : Nat) (data : Str) : Str :=
  buf.take idx ++ data ++ buf.drop (idx + data.length)

/-- The loop body of `HttpConnection::ParseLine` with `checked` playing
`checked_idx_`; structural recursion on the remaining distance
`fuel = read_idx_ - checked_idx_`. -/
def ParseLineGo (buf : Str) (readIdx : Nat) (checked : Nat) :
    Nat → Str × Nat × LineStatus
  | 0 => (buf, checked, .kOpen)
  | fuel + 1 =>
    if checked < readIdx then
      let temp := buf.getD checked nulChar
      if temp = '\r' then
        if checked + 1 = readIdx then (buf, checked, .kOpen)
        else if buf.getD (checked + 1) nulChar = '\n' then
          ((buf.set checked nulChar).set (checked + 1) nulChar, checked + 2, .kOk)
        else (buf, checked, .kBad)
      else if temp = '\n' then
        if checked > 1 ∧ buf.getD (checked - 1) nulChar = '\r' then
          ((buf.set (checked - 1) nulChar).set checked nulChar, checked + 1, .kOk)
        else (buf, checked, .kBad)
      else ParseLineGo buf readIdx (checked + 1) fuel
    else (buf, checked, .kOpen)

/-- `HttpConnection::ParseLine`. -/
def ParseLine (c : Conn) : Conn × LineStatus :=
  let r := ParseLineGo c.readBuf c.readIdx c.checkedIdx (c.readIdx - c.checkedIdx)
  ({c with readBuf := r.1, checkedIdx := r.2.1}, r.2.2)

/-- `GetLine()`: the C string starting at `start_line_`. -/
def getLine (c : Conn) : Str :=
  (c.readBuf.drop c.startLine).takeWhile (fun ch => ch != nulChar)

/-- `strpbrk(text, " \t")` followed by `*p++ = '\0'`: split the string at
its first space or tab, dropping the separator; `none` when `strpbrk`
returns `NULL`. -/
def splitAtSep : Str → Option (Str × Str)
  | [] => none
  | c :: cs =>
    if c = ' ' ∨ c = '\t' then some ([], cs)
    else
      match splitAtSep cs with
      | none => none
      | some (a, b) => some (c :: a, b)

/-- `s += strspn(s, " \t")`. -/
def dropSeps (s : Str) : Str :=
  s.dropWhile (fun c => c == ' ' || c == '\t')

/-- `strchr(s, '/')`: `none` models a `NULL` result. -/
def strchrSlash (s : Str) : Option Str :=
  match s.dropWhile (fun c => c != '/') with
  | [] => none
  | r => some r

/-- Outcome of a successful `ParseRequestLine`: the fields it assigns
(`method_`, the `cgi_` flag set for POST, the final `url_`, and the
`version_` token it compared). -/
structure ReqLineResult where
  method : Method
  cgiFlag : Nat
  url : Str
  version : Str
deriving DecidableEq, Repr

/-- The method recognition of `ParseRequestLine` (`strcasecmp` against
`GET` and `POST`; POST sets the CGI flag); `none` models the
`return kBadRequest` for any other verb. -/
def parseMethodTok (methodTok : Str) : Option (Method × Nat) :=
  if ciEq methodTok "GET".data then some (.kGet, 0)
  else if ciEq methodTok "POST".data then some (.kPost, 1)
  else none

/-- The scheme stripping of `ParseRequestLine`: `http://` and `https://`
each drop the scheme and jump to the first `'/'` (`strchr`), `none`
models a `NULL` `url_`.  When the first strip produces `NULL` the
source's `strncasecmp(NULL, "https://", 8)` is undefined; the model lets
the subsequent `!url_` check reject, the only defined continuation. -/
def stripScheme (u0 : Str) : Option Str :=
  let u1 : Option Str :=
    if ciEq (u0.take 7) "http://".data then strchrSlash (u0.drop 7)
    else some u0
  match u1 with
  | none => none
  | some v =>
    if ciEq (v.take 8) "https://".data then strchrSlash (v.drop 8)
    else some v

/-- The url/version part of `ParseRequestLine`, after the method was
recognized: split the remainder at the next blank, require the version
token to compare equal (`strcasecmp`) to `HTTP/1.1`, strip any scheme,
require a leading `'/'`, and rewrite the bare `"/"` to `/judge.html`. -/
def parseUrlVersion (m : Method) (cgiFlag : Nat) (afterMethod : Str) :
    Option ReqLineResult :=
  match splitAtSep afterMethod with
  | none => none
  | some (urlTok, verRest) =>
    let versionTok := dropSeps verRest
    if ciEq versionTok "HTTP/1.1".data then
      match stripScheme urlTok with
      | none => none
      | some u =>
        if u.headD nulChar = '/' then
          let uFinal := if u.length = 1 then "/judge.html".data else u
          some ⟨m, cgiFlag, uFinal, versionTok⟩
        else none
    else none

/-- `HttpConnection::ParseRequestLine`; `none` models
`return kBadRequest`. -/
def ParseRequestLine (text : Str) : Option ReqLineResult :=
  match splitAtSep text with
  | none => none
  | some (methodTok, rest0) =>
    match parseMethodTok methodTok with
    | none => none
    | some (m, cgiFlag) => parseUrlVersion m cgiFlag (dropSeps rest0)

/-- The state update `ParseRequestLine` performs on success
(`method_`, `cgi_` for POST, `url_`, `check_state_ = kHeader`),
paired with the returned `HttpCode`. -/
def ParseRequestLineConn (c : Conn) (text : Str) : Conn × HttpCode :=
  match ParseRequestLine text with
  | none => (c, .kBadRequest)
  | some r =>
    ({c with method := r.method,
             cgi := if r.cgiFlag = 1 then 1 else c.cgi,
             url := r.url, version := r.version,
             checkState := .kHeader}, .kNoRequest)

/-- `atol` on the header value (C whitespace skip, optional sign, leading
digits), followed by the implicit conversion of the `long` result to the
`size_t` field `content_length_`. -/
def atolSizeT (s : Str) : Nat :=
  let s1 := s.dropWhile (fun c =>
    c == ' ' || c == '\t' || c == '\n' || c == '\r' || c == '\x0b' || c == '\x0c')
  let (neg, s2) : Bool × Str :=
    match s1 with
    | '-' :: rest => (true, rest)
    | '+' :: rest => (false, rest)
    | rest => (false, rest)
  let digits := s2.takeWhile (fun c => c.isDigit)
  let v : Nat := digits.foldl (fun a c => 10 * a + (c.toNat - '0'.toNat)) 0
  if neg then (2 ^ 64 - v % 2 ^ 64) % 2 ^ 64 else v % 2 ^ 64

/-- `HttpConnection::ParseHeaders`. -/
def ParseHeaders (c : Conn) (text : Str) : Conn × HttpCode :=
  if text = [] then
    if c.contentLength ≠ 0 then ({c with checkState := .kContent}, .kNoRequest)
    else (c, .kGetRequest)
  else if ciEq (text.take 11) "Connection:".data then
    let v := dropSeps (text.drop 11)
    if ciEq v "keep-alive".data then ({c with linger := true}, .kNoRequest)
    else (c, .kNoRequest)
  else if ciEq (text.take 15) "Content-length:".data then
    ({c with contentLength := atolSizeT (dropSeps (text.drop 15))}, .kNoRequest)
  else if ciEq (text.take 5) "Host:".data then
    ({c with host := dropSeps (text.drop 5)}, .kNoRequest)
  else (c, .kNoRequest)

/-- `HttpConnection::ParseContent`; `oldStart` is the position of `text`
(the `start_line_` value at the time `GetLine()` produced it). -/
def ParseContent (c : Conn) (oldStart : Nat) : Conn × HttpCode :=
  if c.readIdx ≥ c.contentLength + c.checkedIdx then
    let buf1 := c.readBuf.set (oldStart + c.contentLength) nulChar
    let body := (buf1.drop oldStart).takeWhile (fun ch => ch != nulChar)
    ({c with readBuf := buf1, bodyStr := body}, .kGetRequest)
  else (c, .kNoRequest)

/-- The name extraction of `DoRequest`:
`for (i = 5; string_[i] != '&'; ++i) name[i-5] = string_[i]`.
Defined for bodies that contain a `'&'` at or after index 5 (otherwise the
source reads past the terminator, which is undefined; the model then takes
the rest of the string). -/
def extractName (s : Str) : Str :=
  (s.drop 5).takeWhile (fun c => c != '&')

/-- The password extraction of `DoRequest`:
`for (i = i + 10; string_[i] != '\0'; ++i, ++j) password[j] = string_[i]`
with `i` left at the index of the `'&'`, i.e. the bytes from
10 positions past the `'&'` to the end of the body. -/
def extractPassword (s : Str) : Str :=
  s.drop (5 + (extractName s).length + 10)

/-- `*(p + 1)` where `p = strrchr(url_, '/')`: the character right after
the last slash (the terminating NUL when the url ends in a slash).  For a
url with no slash the source dereferences past a `NULL` pointer; such urls
are never produced by `ParseRequestLine`. -/
def afterLastSlashChar (url : Str) : Char :=
  ((url.reverse.takeWhile (fun c => c != '/')).reverse).headD nulChar

/-- `users` lookup, modelling `std::map::find` / `operator[]` on the
process-wide users cache (association list, first binding wins). -/
def lookupUsers (users : List (Str × Str)) (name : Str) : Option Str :=
  match users with
  | [] => none
  | (k, v) :: rest => if k = name then some v else lookupUsers rest name

/-- Result of the CGI block of `DoRequest` (lines 371-423): the rewritten
`url_` and the users cache after the block. -/
structure CgiOutcome where
  url : Str
  users : List (Str × Str)
deriving DecidableEq, Repr

/-- The CGI block of `HttpConnection::DoRequest`: login check for a
post-slash character `'2'`, register check for `'3'`.  `dbInsertOk`
models `mysql_query(mysql, sql_insert) == 0`.  Note the source inserts
into the users cache whether or not the database insert succeeded, and
only the served page depends on the result. -/
def doRequestCgi (cgi : Nat) (url : Str) (body : Str)
    (users : List (Str × Str)) (dbInsertOk : Bool) : CgiOutcome :=
  let pc := afterLastSlashChar url
  if cgi = 1 ∧ (pc = '2' ∨ pc = '3') then
    let name := extractName body
    let password := extractPassword body
    if pc = '3' then
      if lookupUsers users name = none then
        let users1 := users ++ [(name, password)]
        if dbInsertOk then ⟨"/log.html".data, users1⟩
        else ⟨"/registerError.html".data, users1⟩
      else ⟨"/registerError.html".data, users⟩
    else
      if lookupUsers users name = some password then ⟨"/welcome.html".data, users⟩
      else ⟨"/logError.html".data, users⟩
  else ⟨url, users⟩

/-- Index of the last `'/'` in a url (`strrchr(url_, '/')`). -/
def lastSlashIdx (s : Str) : Option Nat :=
  let tailLen := (s.reverse.takeWhile (fun c => c != '/')).length
  if tailLen = s.length then none else some (s.length - 1 - tailLen)

/-- The byte at index `j` of the url buffer after the CGI block may have
overwritten it with a shorter string (`strcpy` leaves the bytes beyond
the new terminator untouched): within the rewritten string its own byte,
at its length the new NUL, beyond it the stale byte of the original. -/
def charAfterRewrite (orig rewritten : Str) (j : Nat) : Char :=
  if j < rewritten.length then rewritten.getD j nulChar
  else if j = rewritten.length then nulChar
  else orig.getD j nulChar

/-- The `real_file_` computation of `DoRequest` after the CGI block: the
dispatch on the character after the last slash, with the source's
`strncpy` bound `kFileNameLen - len - 1` on the default branch. -/
def routeFile (docRoot : Str) (pc : Char) (url1 : Str) : Str :=
  if pc = '0' then docRoot ++ "/register.html".data
  else if pc = '1' then docRoot ++ "/log.html".data
  else if pc = '5' then docRoot ++ "/picture.html".data
  else if pc = '6' then docRoot ++ "/video.html".data
  else if pc = '7' then docRoot ++ "/fans.html".data
  else docRoot ++ url1.take (kFileNameLen - docRoot.length - 1)

/-- Collaborators of `DoRequest` that live outside the connection: the
filesystem (`stat` on a resolved path), the database insert result, and
the process-wide users cache. -/
structure World where
  fs : Str → Option FileStat
  dbInsertOk : Bool
  users : List (Str × Str)

/-- `HttpConnection::DoRequest`. -/
def DoRequest (world : World) (docRoot : Str) (c : Conn) :
    World × Conn × HttpCode :=
  let cgiOut := doRequestCgi c.cgi c.url c.bodyStr world.users world.dbInsertOk
  let pc : Char :=
    match lastSlashIdx c.url with
    | some i => charAfterRewrite c.url cgiOut.url (i + 1)
    | none => nulChar
  let rf := routeFile docRoot pc cgiOut.url
  let world1 := {world with users := cgiOut.users}
  let c1 := {c with url := cgiOut.url}
  match world.fs rf with
  | none => (world1, c1, .kNoResource)
  | some st =>
    if st.worldReadable = false then (world1, c1, .kForbiddenRequest)
    else if st.isDirectory then (world1, c1, .kBadRequest)
    else (world1, {c1 with fileSize := st.stSize}, .kFileRequest)

/-- One executed line body of the `ProcessRead` loop: capture
`text = GetLine()`, set `start_line_ = checked_idx_`, then dispatch on
`check_state_`.  `done` models a `return`, `continueLoop` carries the
`line_status` value the next loop test sees. -/
inductive StepRes where
  | done (w : World) (c : Conn) (code : HttpCode)
  | continueLoop (w : World) (c : Conn) (ls : LineStatus)

/-- The switch body of `HttpConnection::ProcessRead`. -/
def processOneLine (world : World) (docRoot : Str) (c0 : Conn) : StepRes :=
  let text := getLine c0
  let oldStart := c0.startLine
  let c := {c0 with startLine := c0.checkedIdx}
  match c.checkState with
  | .kRequestLine =>
    let r := ParseRequestLineConn c text
    if r.2 = .kBadRequest then .done world r.1 .kBadRequest
    else .continueLoop world r.1 .kOk
  | .kHeader =>
    let r := ParseHeaders c text
    if r.2 = .kBadRequest then .done world r.1 .kBadRequest
    else if r.2 = .kGetRequest then
      let d := DoRequest world docRoot r.1
      .done d.1 d.2.1 d.2.2
    else .continueLoop world r.1 .kOk
  | .kContent =>
    let r := ParseContent c oldStart
    if r.2 = .kGetRequest then
      let d := DoRequest world docRoot r.1
      .done d.1 d.2.1 d.2.2
    else .continueLoop world r.1 .kOpen

/-- The `ProcessRead` loop; `fuel` bounds the number of iterations (each
iteration either returns or consumes buffer positions, so any fuel of at
least `2 * kReadBufferSize + 8` is never exhausted on reachable states). -/
def processReadGo (docRoot : Str) :
    Nat → World → LineStatus → Conn → World × Conn × HttpCode
  | 0, w, _, c => (w, c, .kNoRequest)
  | fuel + 1, w, ls, c =>
    if c.checkState = .kContent ∧ ls = .kOk then
      match processOneLine w docRoot c with
      | .done w1 c1 code => (w1, c1, code)
      | .continueLoop w1 c1 ls1 => processReadGo docRoot fuel w1 ls1 c1
    else
      let pl := ParseLine c
      if pl.2 = .kOk then
        match processOneLine w docRoot pl.1 with
        | .done w1 c1 code => (w1, c1, code)
        | .continueLoop w1 c1 ls1 => processReadGo docRoot fuel w1 ls1 c1
      else (w, pl.1, .kNoRequest)

/-- `HttpConnection::ProcessRead`. -/
def ProcessRead (world : World) (docRoot : Str) (c : Conn) :
    World × Conn × HttpCode :=
  processReadGo docRoot (2 * kReadBufferSize + 8) world .kOk c

/-- One `recv` outcome: `bytes data` for a return of `data.length ≥ 0`
(empty = peer EOF), `errAgain` for `-1` with `EAGAIN`/`EWOULDBLOCK`,
`errOther` for `-1` with any other `errno`. -/
inductive RecvResult where
  | bytes (data : Str)
  | errAgain
  | errOther
deriving DecidableEq, Repr

/-- The LT branch of `HttpConnection::read_once`: a single `recv`.
`read_idx_` is a `size_t` and the source executes
`read_idx_ += bytes_read` before testing `bytes_read <= 0`, so a `-1`
return wraps the cursor modulo `2^64`. -/
def readOnceLTBody (c : Conn) (r : RecvResult) : Conn × Bool :=
  match r with
  | .bytes data =>
    let c1 := {c with readBuf := recvWrite c.readBuf c.readIdx data,
                      readIdx := c.readIdx + data.length}
    (c1, data.length != 0)
  | .errAgain =>
    ({c with readIdx := (c.readIdx + (2 ^ 64 - 1)) % 2 ^ 64}, false)
  | .errOther =>
    ({c with readIdx := (c.readIdx + (2 ^ 64 - 1)) % 2 ^ 64}, false)

/-- The ET branch of `HttpConnection::read_once`: drain until `EAGAIN`,
EOF, or error.  The trace of `recv` outcomes is supplied; an exhausted
trace (never produced by a real socket, which always ends a drain with
one of the three terminators) is mapped to failure. -/
def readOnceETGo (c : Conn) : List RecvResult → Conn × Bool
  | [] => (c, false)
  | .errAgain :: _ => (c, true)
  | .errOther :: _ => (c, false)
  | .bytes data :: rest =>
    if data.length = 0 then (c, false)
    else readOnceETGo
      {c with readBuf := recvWrite c.readBuf c.readIdx data,
              readIdx := c.readIdx + data.length} rest

/-- `HttpConnection::read_once`. -/
def read_once (c : Conn) (triggerMode : Nat) (ltRecv : RecvResult)
    (etRecvs : List RecvResult) : Conn × Bool :=
  if c.readIdx ≥ kReadBufferSize then (c, false)
  else if triggerMode = 0 then readOnceLTBody c ltRecv
  else readOnceETGo c etRecvs

/-- A `recv` never returns more bytes than the requested
`kReadBufferSize - read_idx_`; this predicate states that bound for every
chunk of an ET drain trace, threading the advancing cursor. -/
def ValidRecvs : Nat → List RecvResult → Prop
  | _, [] => True
  | idx, .bytes data :: rest =>
    data.length ≤ kReadBufferSize - idx ∧ ValidRecvs (idx + data.length) rest
  | _, .errAgain :: _ => True
  | _, .errOther :: _ => True

/-- The emission-loop state of `HttpConnection::write`:
`iov_[0].iov_len`, `iov_[1].iov_len`, `bytes_to_send_` (an `int`) and
`bytes_have_send_`. -/
structure EmitState where
  iovLen0 : Nat
  iovLen1 : Nat
  bytesToSend : Int
  bytesHaveSend : Nat
deriving DecidableEq, Repr

/-- Emission state on entry to `write()` for a gather vector set up by
`ProcessWrite` (`bytes_have_send_` is 0 from `init()`). -/
def emitOf (iv : IovState) : EmitState :=
  ⟨iv.iovLen0, iv.iovLen1, iv.bytesToSend, 0⟩

/-- One successful `writev` iteration of `HttpConnection::write`
(lines 499-508) with result `temp ≥ 0`: accumulate, then either zero the
first iovec and set `iov_[1].iov_len = bytes_to_send_` (the `int` is
converted to `size_t` on assignment), or shrink `iov_[0].iov_len` by the
*cumulative* `bytes_have_send_`. -/
def writeIterStep (st : EmitState) (temp : Nat) : EmitState :=
  let haveSent := st.bytesHaveSend + temp
  let toSend := st.bytesToSend - (temp : Int)
  if haveSent ≥ st.iovLen0 then
    ⟨0, ((toSend % ((2 : Int) ^ 64)).toNat), toSend, haveSent⟩
  else
    ⟨st.iovLen0 - haveSent, st.iovLen1, toSend, haveSent⟩

/-- One `writev` outcome inside the `write()` loop. -/
inductive WriteEvent where
  | wrote (n : Nat)
  | eagain
  | errOther
deriving DecidableEq, Repr

/-- The loop of `HttpConnection::write` over a trace of `writev`
outcomes.  The Bool result is the function's return value (false tells
the caller to close the connection); `none` marks an exhausted modelled
trace. -/
def writeLoopGo (linger : Bool) : EmitState → List WriteEvent → Option (Bool × EmitState)
  | _, [] => none
  | st, .eagain :: _ => some (true, st)
  | st, .errOther :: _ => some (false, st)
  | st, .wrote temp :: rest =>
    let st1 := writeIterStep st temp
    if st1.bytesToSend ≤ 0 then
      if linger then some (true, st1) else some (false, st1)
    else writeLoopGo linger st1 rest

/-- `HttpConnection::write`: the entry test for `bytes_to_send_ == 0`
followed by the emission loop. -/
def httpWrite (linger : Bool) (st : EmitState) (evs : List WriteEvent) :
    Option (Bool × EmitState) :=
  if st.bytesToSend = 0 then some (true, st)
  else writeLoopGo linger st evs

/-- A node of the sorted timer list: the absolute expiry
(`expire_time_`, modelled as a natural tick count) plus an identity tag
standing for the callback / client-data payload. -/
structure Timer where
  expire : Nat
  uid : Nat
deriving DecidableEq, Repr

/-- The timer-list invariant: expiries ascend (non-strictly) from head
to tail. -/
def SortedTimers (l : List Timer) : Prop :=
  l.Pairwise (fun a b => a.expire ≤ b.expire)

instance (l : List Timer) : Decidable (SortedTimers l) :=
  inferInstanceAs (Decidable (l.Pairwise _))

/-- The private `SortedTimerList::AddTimer(timer, list_head)`: walk from
`list_head->next_`, insert before the first node with a strictly larger
expiry, else append at the tail. -/
def AddTimerFrom (t : Timer) (listHead : Timer) : List Timer → List Timer
  | [] => [listHead, t]
  | c :: cs =>
    if t.expire < c.expire then listHead :: t :: c :: cs
    else listHead :: AddTimerFrom t c cs

/-- `SortedTimerList::AddTimer(timer)`. -/
def AddTimer (t : Timer) : List Timer → List Timer
  | [] => [t]
  | h :: rest =>
    if t.expire < h.expire then t :: h :: rest
    else AddTimerFrom t h rest

/-- `SortedTimerList::AdjustTimer(timer)` for the node sitting between
`pre` and `post` (its `expire` field already holding the new value `t`):
no-op when it has no successor or still precedes it, otherwise detach and
re-insert from the successor onward.  `pre = []` is the head case. -/
def AdjustTimer (pre : List Timer) (t : Timer) (post : List Timer) : List Timer :=
  match post with
  | [] => pre ++ [t]
  | n :: rest =>
    if t.expire < n.expire then pre ++ t :: n :: rest
    else pre ++ AddTimerFrom t n rest

/-- `SortedTimerList::DeleteTimer(timer)` for the node between `pre` and
`post`: unlink it. -/
def DeleteTimer (pre : List Timer) (post : List Timer) : List Timer :=
  pre ++ post

/-- `SortedTimerList::Tick()`: fire and unlink every head node whose
expiry is not in the future. -/
def Tick (now : Nat) (l : List Timer) : List Timer :=
  l.dropWhile (fun t => t.expire ≤ now)

/-- A fresh connection that has received exactly the bytes `s` in one
LT-mode `recv`. -/
def connWithInput (s : Str) : Conn :=
  (read_once connInit 0 (.bytes s) []).1

/-- A filesystem on which every `stat` fails. -/
def fsNone : Str → Option FileStat := fun _ => none

/-- A world with an empty users cache, a succeeding database and no
files. -/
def emptyWorld : World := ⟨fsNone, true, []⟩

/-! ## Helper lemmas -/

theorem addResponse_cases (s : Str) (w : WState) :
    ((AddResponse s w).1 = true ∧
     (AddResponse s w).2.writeIdx = w.writeIdx + s.length ∧
     w.writeIdx + s.length < kWriteBufferSize - 1) ∨
    ((AddResponse s w).1 = false ∧ (AddResponse s w).2 = w) := by
  simp only [AddResponse]
  split_ifs with h1 h2
  · right; exact ⟨rfl, rfl⟩
  · right; exact ⟨rfl, rfl⟩
  · left
    refine ⟨rfl, rfl, ?_⟩
    have hk : kWriteBufferSize = 1024 := rfl
    omega

theorem addResponse_writeIdx_lt (s : Str) (w : WState)
    (h : w.writeIdx < kWriteBufferSize) :
    (AddResponse s w).2.writeIdx < kWriteBufferSize := by
  rcases addResponse_cases s w with ⟨_, h2, h3⟩ | ⟨_, h2⟩
  · have hk : kWriteBufferSize = 1024 := rfl
    omega
  · rw [h2]; exact h

theorem foldl_addResponse_lt (ss : List Str) :
    ∀ w : WState, w.writeIdx < kWriteBufferSize →
      (ss.foldl (fun w s => (AddResponse s w).2) w).writeIdx < kWriteBufferSize := by
  induction ss with
  | nil => intro w h; simpa using h
  | cons s ss ih =>
    intro w h
    simp only [List.foldl_cons]
    exact ih _ (addResponse_writeIdx_lt s w h)

/-! ## Claim C10 -/

/-- C10: every call to `AddResponse` either returns true with the new
`write_idx_` still strictly below `kWriteBufferSize`, or returns false
leaving the state unchanged; consequently no sequence of
response-building calls pushes `write_idx_` past the write buffer. -/
theorem claim10_addResponse_bounded :
    (∀ (s : Str) (w : WState),
      ((AddResponse s w).1 = true ∧
       (AddResponse s w).2.writeIdx < kWriteBufferSize) ∨
      ((AddResponse s w).1 = false ∧ (AddResponse s w).2.writeIdx = w.writeIdx)) ∧
    (∀ ss : List Str,
      (ss.foldl (fun w s => (AddResponse s w).2) initWState).writeIdx <
        kWriteBufferSize) := by
  constructor
  · intro s w
    rcases addResponse_cases s w with ⟨h1, h2, h3⟩ | ⟨h1, h2⟩
    · left
      refine ⟨h1, ?_⟩
      have hk : kWriteBufferSize = 1024 := rfl
      omega
    · right; exact ⟨h1, by rw [h2]⟩
  · intro ss
    exact foldl_addResponse_lt ss initWState (by decide)

/-! ## Claim C2 -/

/-- C2 counterexample: on a path where `stat` fails the handler does
return `kNoResource`, but `ProcessWrite` has no case for it — the
`default:` branch returns false, so the connection is closed without any
response bytes (no 404 status line, no body); shown both on the
resolution function and on the full pipeline for the spec's literal
scenario `GET /nope HTTP/1.1`. -/
theorem claim2_counterexample :
    fileResolutionCode none = HttpCode.kNoResource ∧
    ProcessWrite .kNoResource false 0 initWState 0 = none ∧
    (ProcessRead ⟨fsNone, true, []⟩ "/root".data
        (connWithInput "GET /nope HTTP/1.1\r\nHost: x\r\n\r\n".data)).2.2 =
      HttpCode.kNoResource := by decide

/-- C2 (amended): a failing `stat` yields the `NoResource` outcome, and
`ProcessWrite` then returns false for every write-buffer state (the
outcome falls into the switch default), so the connection is closed
without the 404 response the spec describes. -/
theorem claim2_noResource_closed_without_response :
    fileResolutionCode none = HttpCode.kNoResource ∧
    ∀ (linger : Bool) (fileSize : Nat) (w : WState) (p1 : Nat),
      ProcessWrite .kNoResource linger fileSize w p1 = none := by
  exact ⟨rfl, fun _ _ _ _ => rfl⟩

/-! ## Claim C1 -/

/-- C1 counterexample: the parsing outcome for `GET / HTTP/2.0\r\n\r\n`
is indeed `kBadRequest`, but the response `ProcessWrite` builds for
`kBadRequest` carries the 404 status line and the not-found body, not the
400 status line with the bad-request form the claim states. -/
theorem claim1_counterexample :
    (ProcessRead emptyWorld "/root".data
        (connWithInput "GET / HTTP/2.0\r\n\r\n".data)).2.2 = HttpCode.kBadRequest ∧
    (ProcessWrite .kBadRequest false 0 initWState 0).map
        (fun p => statusLineOf p.1.writeBuf) =
      some ("HTTP/1.1 404 Not Found".data) ∧
    "HTTP/1.1 404 Not Found".data ≠ "HTTP/1.1 400 Bad Request".data ∧
    (ProcessWrite .kBadRequest false 0 initWState 0).map
        (fun p => p.1.writeBuf.drop (p.1.writeBuf.length - kError404Form.length)) =
      some kError404Form ∧
    kError404Form ≠ kError400Form := by
  refine ⟨by decide, by decide, by decide, by decide, by decide⟩

/-- C1 (amended): a request whose parsing yields `kBadRequest` is
answered with a response whose status line carries code 404 and whose
body is the not-found form (`kError404Form`); with the keep-alive flag
unset — as it is for every request-line-stage `kBadRequest` — the
emission loop returns false once the bytes are written, so the caller
closes the connection.  In particular `GET / HTTP/2.0\r\n\r\n` receives
that 404 response. -/
theorem claim1_badRequest_yields_404_and_close :
    (∀ linger : Bool,
      (ProcessWrite .kBadRequest linger 0 initWState 0).map
          (fun p => statusLineOf p.1.writeBuf) =
        some ("HTTP/1.1 404 Not Found".data) ∧
      (ProcessWrite .kBadRequest linger 0 initWState 0).map
          (fun p => p.1.writeBuf.drop (p.1.writeBuf.length - kError404Form.length)) =
        some kError404Form) ∧
    (ProcessWrite .kBadRequest false 0 initWState 0).map (fun p =>
        (httpWrite false (emitOf p.2) [.wrote p.2.bytesToSend.toNat]).map Prod.fst) =
      some (some false) ∧
    (ProcessRead emptyWorld "/root".data
        (connWithInput "GET / HTTP/2.0\r\n\r\n".data)).2.2 = HttpCode.kBadRequest := by
  refine ⟨fun linger => ?_, by decide, by decide⟩
  cases linger
  · exact ⟨by decide, by decide⟩
  · exact ⟨by decide, by decide⟩

/-! ## Claim C8 -/

/-- C8 counterexample: the spec's oversize-body rejection does not exist.
For `POST /a` with `Content-Length:9999` (larger than the 2048-byte read
buffer) the parser outcome is `kNoRequest` — it keeps waiting — and never
`kBadRequest`; the parsed length really is 9999. -/
theorem claim8_counterexample :
    (ProcessRead emptyWorld "/root".data
        (connWithInput "POST /a HTTP/1.1\r\nContent-Length:9999\r\n\r\nxyz".data)).2.2 =
      HttpCode.kNoRequest ∧
    (ProcessRead emptyWorld "/root".data
        (connWithInput "POST /a HTTP/1.1\r\nContent-Length:9999\r\n\r\nxyz".data)).2.1.contentLength =
      9999 ∧
    HttpCode.kNoRequest ≠ HttpCode.kBadRequest := by
  refine ⟨by decide, by decide, by decide⟩

/-- C8 (amended): a request whose parsed `Content-Length` exceeds the
read-buffer capacity is never rejected with `kBadRequest`: under the
cursor bound `read_idx_ ≤ kReadBufferSize`, `ParseContent` always
reports `kNoRequest`, and once the buffer is full `read_once` returns
false, so the connection is closed without a verdict. -/
theorem claim8_oversize_content_never_resolved :
    (∀ (c : Conn) (oldStart : Nat),
      c.contentLength > kReadBufferSize → c.readIdx ≤ kReadBufferSize →
      (ParseContent c oldStart).2 = .kNoRequest) ∧
    (∀ (c : Conn) (tm : Nat) (lt : RecvResult) (ets : List RecvResult),
      c.readIdx ≥ kReadBufferSize → read_once c tm lt ets = (c, false)) := by
  constructor
  · intro c oldStart h1 h2
    have h3 : ¬ (c.readIdx ≥ c.contentLength + c.checkedIdx) := by omega
    simp only [ParseContent, if_neg h3]
  · intro c tm lt ets h
    simp only [read_once, if_pos h]

/-- C8 witness data for the amended theorem. -/
theorem claim8_witness :
    (ParseContent ⟨[], 0, 0, 0, .kContent, .kGet, 0, [], [], [], false, 9999, [], 0⟩ 0).2 =
      .kNoRequest ∧
    read_once ⟨[], 3000, 0, 0, .kContent, .kGet, 0, [], [], [], false, 9999, [], 0⟩ 0
        (.bytes []) [] =
      (⟨[], 3000, 0, 0, .kContent, .kGet, 0, [], [], [], false, 9999, [], 0⟩, false) := by
  constructor
  · exact claim8_oversize_content_never_resolved.1 _ 0 (by decide) (by decide)
  · exact claim8_oversize_content_never_resolved.2 _ 0 (.bytes []) [] (by decide)

/-! ## Claims C3 and C4 -/

theorem takeWhile_ne_amp_append (u rest : Str) (hu : '&' ∉ u) :
    (u ++ '&' :: rest).takeWhile (fun c => c != '&') = u := by
  induction u with
  | nil => simp [List.takeWhile_cons]
  | cons c cs ih =>
    have hc : c ≠ '&' := fun h => hu (h ▸ List.mem_cons_self c cs)
    have hcs : '&' ∉ cs := fun h => hu (List.mem_cons_of_mem c h)
    simp [List.takeWhile_cons, hc, ih hcs]

theorem extractName_login_body (u p : Str) (hu : '&' ∉ u) :
    extractName ("user=".data ++ u ++ "&password=".data ++ p) = u := by
  have hassoc : "user=".data ++ u ++ "&password=".data ++ p =
      "user=".data ++ (u ++ ('&' :: ("password=".data ++ p))) := by
    simp [List.append_assoc]
  unfold extractName
  rw [hassoc, List.drop_left' (by rfl : ("user=".data : Str).length = 5)]
  exact takeWhile_ne_amp_append u ("password=".data ++ p) hu

theorem extractPassword_login_body (u p : Str) (hu : '&' ∉ u) :
    extractPassword ("user=".data ++ u ++ "&password=".data ++ p) = p := by
  unfold extractPassword
  rw [extractName_login_body u p hu]
  have hlen : (("user=".data ++ u) ++ "&password=".data).length = 5 + u.length + 10 := by
    simp [List.length_append]
    omega
  exact List.drop_left' hlen

/-- C3 counterexample: the literal scenario of the spec.  With the users
cache mapping `alice` to `secret1` and the body
`user=alice&passwd=secret1`, the login check serves `logError.html`, not
`welcome.html`: the extraction skips 10 bytes past the `&` (the length of
`&password=`), so with a `passwd=` field the compared password drops its
first two characters. -/
theorem claim3_counterexample :
    lookupUsers [("alice".data, "secret1".data)] "alice".data = some ("secret1".data) ∧
    (doRequestCgi 1 "/2CGISQL.cgi".data "user=alice&passwd=secret1".data
        [("alice".data, "secret1".data)] true).url = "/logError.html".data ∧
    "/logError.html".data ≠ "/welcome.html".data ∧
    extractPassword "user=alice&passwd=secret1".data = "cret1".data := by
  refine ⟨by decide, by decide, by decide, by decide⟩

/-- C3 (amended): the body format the login check actually decodes is
`user=<u>&password=<p>` (the code skips the 10 bytes of `&password=`).
For every such body, the first path character `'2'` dispatch serves
`welcome.html` exactly when the users cache maps `<u>` to `<p>`, and
`logError.html` otherwise, leaving the cache unchanged. -/
theorem claim3_login_check_password_field :
    ∀ (u p body : Str) (users : List (Str × Str)) (url : Str) (dbOk : Bool),
      '&' ∉ u →
      afterLastSlashChar url = '2' →
      body = "user=".data ++ u ++ "&password=".data ++ p →
      (doRequestCgi 1 url body users dbOk).url =
        (if lookupUsers users u = some p then "/welcome.html".data
         else "/logError.html".data) ∧
      (doRequestCgi 1 url body users dbOk).users = users := by
  intro u p body users url dbOk hu h2 hbody
  have hn : extractName body = u := by rw [hbody]; exact extractName_login_body u p hu
  have hp : extractPassword body = p := by rw [hbody]; exact extractPassword_login_body u p hu
  simp only [doRequestCgi, h2, hn, hp, if_true]
  by_cases hl : lookupUsers users u = some p
  · rw [if_pos hl, if_pos hl]; exact ⟨rfl, rfl⟩
  · rw [if_neg hl, if_neg hl]; exact ⟨rfl, rfl⟩

/-- C3 witness: the spec scenario with the field name the code actually
expects (`users_map["alice"] == "secret1"`, body
`user=alice&password=secret1`) does serve `welcome.html`. -/
theorem claim3_witness :
    (doRequestCgi 1 "/2CGISQL.cgi".data
        ("user=".data ++ "alice".data ++ "&password=".data ++ "secret1".data)
        [("alice".data, "secret1".data)] true).url = "/welcome.html".data := by
  have h := claim3_login_check_password_field "alice".data "secret1".data
    ("user=".data ++ "alice".data ++ "&password=".data ++ "secret1".data)
    [("alice".data, "secret1".data)] "/2CGISQL.cgi".data true (by decide) (by decide) rfl
  rw [h.1]
  decide

/-- C4 counterexample: a register flow whose database insert fails
(`dbInsertOk = false`) still inserts into the users cache — the cache
goes from empty to holding the new name — so the claimed "DB-successful
registers only" characterization of `users_map` is false. -/
theorem claim4_counterexample :
    (doRequestCgi 1 "/3CGISQL.cgi".data "user=newbob&passwd=p".data [] false).users =
      [("newbob".data, [])] ∧
    ([("newbob".data, ([] : Str))] : List (Str × Str)) ≠ [] ∧
    (doRequestCgi 1 "/3CGISQL.cgi".data "user=newbob&passwd=p".data [] false).url =
      "/registerError.html".data := by
  refine ⟨by decide, by decide, by decide⟩

/-- C4 (amended): a register for a name not yet in the users cache
appends `(name, password)` to the cache whether or not the database
insert succeeds; the insert result only selects the served page
(`log.html` on success, `registerError.html` on failure).  A register
for a name already present leaves the cache unchanged and serves
`registerError.html`. -/
theorem claim4_register_cache_update :
    ∀ (url body : Str) (users : List (Str × Str)) (dbOk : Bool),
      afterLastSlashChar url = '3' →
      (lookupUsers users (extractName body) = none →
        (doRequestCgi 1 url body users dbOk).users =
          users ++ [(extractName body, extractPassword body)] ∧
        (doRequestCgi 1 url body users dbOk).url =
          (if dbOk then "/log.html".data else "/registerError.html".data)) ∧
      (lookupUsers users (extractName body) ≠ none →
        (doRequestCgi 1 url body users dbOk).users = users ∧
        (doRequestCgi 1 url body users dbOk).url = "/registerError.html".data) := by
  intro url body users dbOk h3
  simp only [doRequestCgi, h3, if_true]
  constructor
  · intro hfresh
    rw [if_pos hfresh]
    cases dbOk
    · simp
    · simp
  · intro hfound
    rw [if_neg hfound]
    exact ⟨rfl, rfl⟩

/-- C4 witness: a fresh register with a failing DB insert at concrete
inputs. -/
theorem claim4_witness :
    (doRequestCgi 1 "/3CGISQL.cgi".data "user=eve&passwd=q".data [] false).users =
      [] ++ [(extractName "user=eve&passwd=q".data,
              extractPassword "user=eve&passwd=q".data)] ∧
    (doRequestCgi 1 "/3CGISQL.cgi".data "user=eve&passwd=q".data [] false).url =
      (if false then "/log.html".data else "/registerError.html".data) := by
  exact (claim4_register_cache_update "/3CGISQL.cgi".data "user=eve&passwd=q".data
    [] false (by decide)).1 (by decide)

/-! ## Claim C5 -/

/-- The spec's cursor invariant:
`0 ≤ checked_idx ≤ read_idx ≤ capacity(read_buf)` (the lower bound is
automatic for the unsigned model) together with the buffer keeping its
capacity. -/
def CursorInv (c : Conn) : Prop :=
  c.checkedIdx ≤ c.readIdx ∧ c.readIdx ≤ kReadBufferSize ∧
  c.readBuf.length = kReadBufferSize

theorem parseLineGo_bounds (buf : Str) (readIdx : Nat) :
    ∀ (fuel checked : Nat), checked ≤ readIdx →
      (ParseLineGo buf readIdx checked fuel).2.1 ≤ readIdx ∧
      (ParseLineGo buf readIdx checked fuel).1.length = buf.length := by
  intro fuel
  induction fuel with
  | zero => intro checked h; exact ⟨h, rfl⟩
  | succ n ih =>
    intro checked h
    simp only [ParseLineGo]
    split_ifs with h1 h2 h3 h4 h5 h6
    · exact ⟨h, rfl⟩
    · constructor
      · show checked + 2 ≤ readIdx
        omega
      · show ((buf.set checked nulChar).set (checked + 1) nulChar).length = buf.length
        simp [List.length_set]
    · exact ⟨h, rfl⟩
    · constructor
      · show checked + 1 ≤ readIdx
        omega
      · show ((buf.set (checked - 1) nulChar).set checked nulChar).length = buf.length
        simp [List.length_set]
    · exact ⟨h, rfl⟩
    · exact ih (checked + 1) (by omega)
    · exact ⟨h, rfl⟩

theorem recvWrite_length (buf data : Str) (idx : Nat)
    (h : idx + data.length ≤ buf.length) :
    (recvWrite buf idx data).length = buf.length := by
  simp only [recvWrite, List.length_append, List.length_take, List.length_drop]
  omega

theorem readOnceETGo_inv :
    ∀ (rs : List RecvResult) (c : Conn), CursorInv c →
      ValidRecvs c.readIdx rs → CursorInv (readOnceETGo c rs).1 := by
  intro rs
  induction rs with
  | nil => intro c hc _; exact hc
  | cons r rest ih =>
    intro c hc hv
    cases r with
    | errAgain => exact hc
    | errOther => exact hc
    | bytes data =>
      rcases hv with ⟨hlen, hv⟩
      by_cases h0 : data.length = 0
      · simp only [readOnceETGo, if_pos h0]
        exact hc
      · simp only [readOnceETGo, if_neg h0]
        rcases hc with ⟨hc1, hc2, hc3⟩
        have hk : kReadBufferSize = 2048 := rfl
        refine ih _ ⟨?_, ?_, ?_⟩ ?_
        · show c.checkedIdx ≤ c.readIdx + data.length
          omega
        · show c.readIdx + data.length ≤ kReadBufferSize
          omega
        · show (recvWrite c.readBuf c.readIdx data).length = kReadBufferSize
          rw [recvWrite_length _ _ _ (by omega)]
          exact hc3
        · show ValidRecvs (c.readIdx + data.length) rest
          exact hv

/-- C5 counterexample: from the freshly initialized connection (where
the invariant holds), an LT-mode `recv` returning `-1` leaves
`read_idx_ = 2^64 - 1` — the unsigned addition of the `-1` happens before
the failure check — so `read_idx_ ≤ capacity(read_buf)` is violated at
the state `read_once` leaves behind. -/
theorem connInit_bufLen : connInit.readBuf.length = kReadBufferSize := by
  show (List.replicate kReadBufferSize nulChar).length = kReadBufferSize
  exact List.length_replicate _ _

theorem connInit_cursorInv : CursorInv connInit :=
  ⟨Nat.le_refl 0, by decide, connInit_bufLen⟩

theorem claim5_counterexample :
    CursorInv connInit ∧
    ¬ ((read_once connInit 0 .errAgain []).1.readIdx ≤ kReadBufferSize) := by
  constructor
  · exact connInit_cursorInv
  · decide

/-- C5 (amended): the cursor invariant
`checked_idx ≤ read_idx ≤ capacity(read_buf)` is preserved by every
`ParseLine` step and by every `read_once` outcome *except* an LT-mode
`recv` returning `-1` (where the source adds the `-1` to the unsigned
`read_idx_` before testing it, wrapping the cursor; the function then
returns false and the connection is torn down).  Preservation is shown
for `ParseLine`, for LT reads returning any byte count the socket can
deliver (including 0), and for full ET drains. -/
theorem claim5_cursor_invariant_preserved :
    (∀ c : Conn, CursorInv c → CursorInv (ParseLine c).1) ∧
    (∀ (c : Conn) (data : Str), CursorInv c →
      data.length ≤ kReadBufferSize - c.readIdx →
      CursorInv (read_once c 0 (.bytes data) []).1) ∧
    (∀ (c : Conn) (rs : List RecvResult) (lt : RecvResult), CursorInv c →
      ValidRecvs c.readIdx rs →
      CursorInv (read_once c 1 lt rs).1) := by
  refine ⟨?_, ?_, ?_⟩
  · intro c hc
    rcases hc with ⟨hc1, hc2, hc3⟩
    have h := parseLineGo_bounds c.readBuf c.readIdx (c.readIdx - c.checkedIdx)
      c.checkedIdx hc1
    exact ⟨h.1, hc2, by rw [ParseLine]; simpa [hc3] using h.2⟩
  · intro c data hc hlen
    rcases hc with ⟨hc1, hc2, hc3⟩
    have hk : kReadBufferSize = 2048 := rfl
    by_cases h1 : c.readIdx ≥ kReadBufferSize
    · rw [read_once, if_pos h1]
      exact ⟨hc1, hc2, hc3⟩
    · rw [read_once, if_neg h1, if_pos (rfl : (0 : Nat) = 0)]
      refine ⟨?_, ?_, ?_⟩
      · show c.checkedIdx ≤ c.readIdx + data.length
        omega
      · show c.readIdx + data.length ≤ kReadBufferSize
        omega
      · show (recvWrite c.readBuf c.readIdx data).length = kReadBufferSize
        rw [recvWrite_length _ _ _ (by omega)]
        exact hc3
  · intro c rs lt hc hv
    by_cases h1 : c.readIdx ≥ kReadBufferSize
    · rw [read_once, if_pos h1]
      exact hc
    · rw [read_once, if_neg h1, if_neg (by decide : ¬ ((1 : Nat) = 0))]
      exact readOnceETGo_inv rs c hc hv

/-- C5 witness: the preserved cases applied at concrete states. -/
theorem claim5_witness :
    CursorInv (ParseLine (connWithInput "GET /\r\n".data)).1 ∧
    CursorInv (read_once connInit 0 (.bytes "AB".data) []).1 ∧
    CursorInv (read_once connInit 1 .errAgain [.bytes "AB".data, .errAgain]).1 := by
  have h1 : CursorInv (connWithInput "GET /\r\n".data) :=
    claim5_cursor_invariant_preserved.2.1 connInit "GET /\r\n".data
      connInit_cursorInv (by decide)
  refine ⟨?_, ?_, ?_⟩
  · exact claim5_cursor_invariant_preserved.1 _ h1
  · exact claim5_cursor_invariant_preserved.2.1 connInit "AB".data
      connInit_cursorInv (by decide)
  · exact claim5_cursor_invariant_preserved.2.2 connInit [.bytes "AB".data, .errAgain]
      .errAgain connInit_cursorInv ⟨by decide, trivial⟩

/-! ## Claim C6 -/

/-- The spec's gather-vector invariant: whenever `bytes_to_send_ > 0`,
`iov_[0].iov_len + iov_[1].iov_len == bytes_to_send_`. -/
def IovInv (st : EmitState) : Prop :=
  0 < st.bytesToSend → (st.iovLen0 : Int) + st.iovLen1 = st.bytesToSend

theorem processWrite_setup_sum :
    ∀ (ret : HttpCode) (linger : Bool) (fileSize : Nat) (w wOut : WState) (iv : IovState),
      ProcessWrite ret linger fileSize w 0 = some (wOut, iv) →
      (iv.iovLen0 : Int) + iv.iovLen1 = iv.bytesToSend := by
  intro ret linger fileSize w wOut iv h
  cases ret with
  | kNoRequest => exact Option.noConfusion h
  | kGetRequest => exact Option.noConfusion h
  | kNoResource => exact Option.noConfusion h
  | kClosedConnection => exact Option.noConfusion h
  | kInternalError =>
    simp only [ProcessWrite] at h
    split at h
    · cases h; simp
    · exact Option.noConfusion h
  | kBadRequest =>
    simp only [ProcessWrite] at h
    split at h
    · cases h; simp
    · exact Option.noConfusion h
  | kForbiddenRequest =>
    simp only [ProcessWrite] at h
    split at h
    · cases h; simp
    · exact Option.noConfusion h
  | kFileRequest =>
    simp only [ProcessWrite] at h
    split at h
    · cases h; simp
    · exact Option.noConfusion h

/-- C6 counterexample: starting from the gather vector `ProcessWrite`
sets up for a 5-byte file (`iov = (55, 5)`, `bytes_to_send = 60`), two
consecutive partial `writev` results of 2 and then 3 bytes — both legal
partial writes — leave `bytes_to_send = 55 > 0` but
`iov[0].len + iov[1].len = 48 + 5 = 53`: the loop shrinks
`iov_[0].iov_len` by the *cumulative* `bytes_have_send_` instead of the
last count, so the claimed equality fails after the second iteration. -/
theorem claim6_counterexample :
    (ProcessWrite .kFileRequest false 5 initWState 0).map (fun p => emitOf p.2) =
      some ⟨55, 5, 60, 0⟩ ∧
    0 < (writeIterStep (writeIterStep ⟨55, 5, 60, 0⟩ 2) 3).bytesToSend ∧
    ¬ (((writeIterStep (writeIterStep ⟨55, 5, 60, 0⟩ 2) 3).iovLen0 : Int) +
        (writeIterStep (writeIterStep ⟨55, 5, 60, 0⟩ 2) 3).iovLen1 =
        (writeIterStep (writeIterStep ⟨55, 5, 60, 0⟩ 2) 3).bytesToSend) := by
  refine ⟨by decide, by decide, by decide⟩

/-- C6 (amended): the equality `iov[0].len + iov[1].len = bytes_to_send`
holds right after response setup, and an emission-loop iteration
preserves it in exactly two situations: when the cumulative bytes sent
reach `iov[0].len` (first branch), and on the first iteration
(`bytes_have_send_ = 0`) even if it stays inside the headers.  A second
consecutive partial write inside the headers breaks it (see the
counterexample), because the else branch subtracts the cumulative
`bytes_have_send_` from `iov_[0].iov_len`. -/
theorem claim6_iov_sum_invariant :
    (∀ (ret : HttpCode) (linger : Bool) (fileSize : Nat) (w wOut : WState) (iv : IovState),
      ProcessWrite ret linger fileSize w 0 = some (wOut, iv) →
      (iv.iovLen0 : Int) + iv.iovLen1 = iv.bytesToSend) ∧
    (∀ (st : EmitState) (temp : Nat),
      (st.iovLen0 : Int) + st.iovLen1 = st.bytesToSend →
      (temp : Int) ≤ st.bytesToSend →
      st.bytesToSend < 2 ^ 64 →
      st.iovLen0 ≤ st.bytesHaveSend + temp →
      IovInv (writeIterStep st temp)) ∧
    (∀ (st : EmitState) (temp : Nat),
      (st.iovLen0 : Int) + st.iovLen1 = st.bytesToSend →
      st.bytesHaveSend = 0 →
      st.bytesHaveSend + temp < st.iovLen0 →
      IovInv (writeIterStep st temp)) := by
  refine ⟨processWrite_setup_sum, ?_, ?_⟩
  · intro st temp hsum htemp hbound hge
    simp only [writeIterStep, if_pos hge]
    intro hpos
    simp only [] at hpos ⊢
    rw [show ((2 : Int) ^ 64) = (18446744073709551616 : Int) from by norm_num] at hbound ⊢
    omega
  · intro st temp hsum h0 hlt
    have hne : ¬ (st.bytesHaveSend + temp ≥ st.iovLen0) := by omega
    simp only [writeIterStep, if_neg hne]
    intro hpos
    simp only [] at hpos ⊢
    omega

/-- C6 witness: the three preserved situations at concrete states. -/
theorem claim6_witness :
    (((⟨55, 5, 2, 60⟩ : IovState).iovLen0 : Int) + (⟨55, 5, 2, 60⟩ : IovState).iovLen1 =
      (⟨55, 5, 2, 60⟩ : IovState).bytesToSend) ∧
    IovInv (writeIterStep ⟨10, 5, 15, 0⟩ 12) ∧
    IovInv (writeIterStep ⟨10, 5, 15, 0⟩ 3) := by
  refine ⟨?_, ?_, ?_⟩
  · exact claim6_iov_sum_invariant.1 .kFileRequest false 5 initWState
      ⟨55, "HTTP/1.1 200 OK\r\nContent-Length:5\r\nConnection:close\r\n\r\n".data⟩
      ⟨55, 5, 2, 60⟩ (by decide)
  · exact claim6_iov_sum_invariant.2.1 ⟨10, 5, 15, 0⟩ 12 (by decide) (by decide)
      (by decide) (by decide)
  · exact claim6_iov_sum_invariant.2.2 ⟨10, 5, 15, 0⟩ 3 (by decide) (by decide)
      (by decide)

/-! ## Claim C7 -/

theorem parseMethodTok_cases (mt : Str) (p : Method × Nat)
    (h : parseMethodTok mt = some p) :
    (ciEq mt "GET".data = true ∧ p = (.kGet, 0)) ∨
    (ciEq mt "POST".data = true ∧ p = (.kPost, 1)) := by
  simp only [parseMethodTok] at h
  split_ifs at h with hg hp
  · exact Or.inl ⟨hg, (Option.some.inj h).symm⟩
  · exact Or.inr ⟨hp, (Option.some.inj h).symm⟩

theorem parseMethodTok_none (mt : Str)
    (hg : ciEq mt "GET".data = false) (hp : ciEq mt "POST".data = false) :
    parseMethodTok mt = none := by
  simp [parseMethodTok, hg, hp]

theorem parseUrlVersion_fields (m : Method) (f : Nat) (am : Str) (r : ReqLineResult)
    (h : parseUrlVersion m f am = some r) :
    r.method = m ∧ r.cgiFlag = f ∧ ciEq r.version "HTTP/1.1".data = true := by
  simp only [parseUrlVersion] at h
  split at h
  · exact Option.noConfusion h
  · split at h
    · split at h
      · exact Option.noConfusion h
      · split at h
        · cases h
          refine ⟨rfl, rfl, ?_⟩
          simp_all
        · exact Option.noConfusion h
    · exact Option.noConfusion h

theorem parseUrlVersion_root (m : Method) (f : Nat) (am : Str) (r : ReqLineResult)
    (urlTok verRest : Str)
    (h : parseUrlVersion m f am = some r)
    (hsp2 : splitAtSep am = some (urlTok, verRest))
    (hslash : urlTok = "/".data) :
    r.url = "/judge.html".data := by
  subst hslash
  simp only [parseUrlVersion, hsp2] at h
  have hstrip : stripScheme "/".data = some "/".data := by decide
  split at h
  · simp only [hstrip] at h
    split at h
    · cases h
      simp
    · exact Option.noConfusion h
  · exact Option.noConfusion h

theorem parseUrlVersion_none_version (m : Method) (f : Nat) (am : Str)
    (urlTok verRest : Str)
    (hsp2 : splitAtSep am = some (urlTok, verRest))
    (hv : ciEq (dropSeps verRest) "HTTP/1.1".data = false) :
    parseUrlVersion m f am = none := by
  simp [parseUrlVersion, hsp2, hv]

theorem parseRequestLine_decomp (text : Str) (r : ReqLineResult)
    (h : ParseRequestLine text = some r) :
    ∃ (mt rest : Str) (p : Method × Nat),
      splitAtSep text = some (mt, rest) ∧ parseMethodTok mt = some p ∧
      parseUrlVersion p.1 p.2 (dropSeps rest) = some r := by
  simp only [ParseRequestLine] at h
  split at h
  · exact Option.noConfusion h
  · split at h
    · exact Option.noConfusion h
    · exact ⟨_, _, (_, _), by assumption, by assumption, h⟩

/-- C7 counterexample: the request line `get / http/1.1` is accepted —
its method token is `get`, which is neither the string `GET` nor `POST`,
and its version token is `http/1.1`, not exactly `HTTP/1.1` — because
both comparisons use `strcasecmp`.  So "any other method yields
BadRequest" and "exactly the string HTTP/1.1" are both false as
stated. -/
theorem claim7_counterexample :
    (ParseRequestLine "get / http/1.1".data).isSome = true ∧
    (splitAtSep "get / http/1.1".data).map Prod.fst = some ("get".data) ∧
    "get".data ≠ "GET".data ∧ "get".data ≠ "POST".data ∧
    (ParseRequestLine "get / http/1.1".data).map (fun r => r.version) =
      some ("http/1.1".data) ∧
    "http/1.1".data ≠ "HTTP/1.1".data := by
  refine ⟨by decide, by decide, by decide, by decide, by decide, by decide⟩

/-- C7 (amended): `ParseRequestLine` accepts a request line only when
the method token compares equal to `GET` or `POST`
*case-insensitively* (any other yields `kBadRequest`) and the version
token compares equal to `HTTP/1.1` *case-insensitively* (any other
yields `kBadRequest`); on acceptance a target whose path is exactly `/`
is rewritten to `/judge.html` and the FSM state becomes `kHeader`. -/
theorem claim7_requestline_ci :
    (∀ (text : Str) (r : ReqLineResult), ParseRequestLine text = some r →
      ciEq r.version "HTTP/1.1".data = true ∧
      (∀ (mt rest : Str), splitAtSep text = some (mt, rest) →
        (ciEq mt "GET".data = true ∧ r.method = .kGet ∧ r.cgiFlag = 0) ∨
        (ciEq mt "POST".data = true ∧ r.method = .kPost ∧ r.cgiFlag = 1)) ∧
      (∀ (mt rest urlTok verRest : Str), splitAtSep text = some (mt, rest) →
        splitAtSep (dropSeps rest) = some (urlTok, verRest) → urlTok = "/".data →
        r.url = "/judge.html".data) ∧
      (∀ c : Conn, (ParseRequestLineConn c text).1.checkState = .kHeader ∧
        (ParseRequestLineConn c text).2 = .kNoRequest)) ∧
    (∀ (text mt rest : Str), splitAtSep text = some (mt, rest) →
      ciEq mt "GET".data = false → ciEq mt "POST".data = false →
      ParseRequestLine text = none) ∧
    (∀ (text mt rest urlTok verRest : Str), splitAtSep text = some (mt, rest) →
      splitAtSep (dropSeps rest) = some (urlTok, verRest) →
      ciEq (dropSeps verRest) "HTTP/1.1".data = false →
      ParseRequestLine text = none) := by
  refine ⟨?_, ?_, ?_⟩
  · intro text r h
    obtain ⟨mt0, rest0, p0, hA, hB, hC⟩ := parseRequestLine_decomp text r h
    refine ⟨(parseUrlVersion_fields _ _ _ _ hC).2.2, ?_, ?_, ?_⟩
    · intro mt rest hsp
      rw [hA] at hsp
      cases hsp
      have hf := parseUrlVersion_fields _ _ _ _ hC
      rcases parseMethodTok_cases _ _ hB with ⟨hg, hpeq⟩ | ⟨hp, hpeq⟩
      · subst hpeq
        exact Or.inl ⟨hg, hf.1, hf.2.1⟩
      · subst hpeq
        exact Or.inr ⟨hp, hf.1, hf.2.1⟩
    · intro mt rest urlTok verRest hsp hsp2 hslash
      rw [hA] at hsp
      cases hsp
      exact parseUrlVersion_root _ _ _ _ _ _ hC hsp2 hslash
    · intro c
      simp [ParseRequestLineConn, h]
  · intro text mt rest hsp hg hp
    simp only [ParseRequestLine, hsp, parseMethodTok_none mt hg hp]
  · intro text mt rest urlTok verRest hsp hsp2 hv
    simp only [ParseRequestLine, hsp]
    cases hmc : parseMethodTok mt with
    | none => simp only [hmc]
    | some p =>
      obtain ⟨m, f⟩ := p
      simp only [hmc]
      exact parseUrlVersion_none_version m f _ _ _ hsp2 hv

/-- C7 witness: the amended properties applied at concrete request
lines. -/
theorem claim7_witness :
    ciEq (⟨.kGet, 0, "/judge.html".data, "HTTP/1.1".data⟩ : ReqLineResult).version
      "HTTP/1.1".data = true ∧
    (⟨.kGet, 0, "/judge.html".data, "HTTP/1.1".data⟩ : ReqLineResult).url =
      "/judge.html".data ∧
    (ParseRequestLineConn connInit "GET / HTTP/1.1".data).1.checkState = .kHeader ∧
    ParseRequestLine "PUT / HTTP/1.1".data = none ∧
    ParseRequestLine "GET / HTTP/1.0".data = none := by
  refine ⟨?_, ?_, ?_, ?_, ?_⟩
  · exact (claim7_requestline_ci.1 "GET / HTTP/1.1".data
      ⟨.kGet, 0, "/judge.html".data, "HTTP/1.1".data⟩ (by decide)).1
  · exact (claim7_requestline_ci.1 "GET / HTTP/1.1".data
      ⟨.kGet, 0, "/judge.html".data, "HTTP/1.1".data⟩ (by decide)).2.2.1
      "GET".data "/ HTTP/1.1".data "/".data "HTTP/1.1".data
      (by decide) (by decide) rfl
  · exact ((claim7_requestline_ci.1 "GET / HTTP/1.1".data
      ⟨.kGet, 0, "/judge.html".data, "HTTP/1.1".data⟩ (by decide)).2.2.2 connInit).1
  · exact claim7_requestline_ci.2.1 "PUT / HTTP/1.1".data "PUT".data "/ HTTP/1.1".data
      (by decide) (by decide) (by decide)
  · exact claim7_requestline_ci.2.2 "GET / HTTP/1.0".data "GET".data "/ HTTP/1.0".data
      "/".data "HTTP/1.0".data (by decide) (by decide) (by decide)

/-! ## Claim C9 -/

theorem mem_addTimerFrom (t : Timer) :
    ∀ (rest : List Timer) (lh x : Timer),
      x ∈ AddTimerFrom t lh rest ↔ x = t ∨ x ∈ lh :: rest := by
  intro rest
  induction rest with
  | nil =>
    intro lh x
    simp only [AddTimerFrom, List.mem_cons, List.mem_singleton, List.not_mem_nil, or_false]
    tauto
  | cons c cs ih =>
    intro lh x
    simp only [AddTimerFrom]
    split_ifs with h
    · simp only [List.mem_cons]
      tauto
    · simp only [List.mem_cons, ih c x]
      tauto

theorem sorted_addTimerFrom (t : Timer) :
    ∀ (rest : List Timer) (lh : Timer),
      SortedTimers (lh :: rest) → lh.expire ≤ t.expire →
      SortedTimers (AddTimerFrom t lh rest) := by
  intro rest
  induction rest with
  | nil =>
    intro lh _ hle
    refine List.pairwise_cons.mpr ⟨?_, ?_⟩
    · intro b hb
      rw [List.mem_singleton] at hb
      subst hb
      exact hle
    · exact List.pairwise_singleton _ _
  | cons c cs ih =>
    intro lh hs hle
    have h1 := (List.pairwise_cons.mp hs).1
    have h2 := (List.pairwise_cons.mp hs).2
    have hc1 := (List.pairwise_cons.mp h2).1
    simp only [AddTimerFrom]
    split_ifs with h
    · refine List.pairwise_cons.mpr ⟨?_, List.pairwise_cons.mpr ⟨?_, h2⟩⟩
      · intro b hb
        rcases List.mem_cons.mp hb with hbt | hbm
        · subst hbt; exact hle
        · exact h1 b hbm
      · intro b hb
        rcases List.mem_cons.mp hb with hbc | hbm
        · subst hbc; exact Nat.le_of_lt h
        · exact Nat.le_trans (Nat.le_of_lt h) (hc1 b hbm)
    · refine List.pairwise_cons.mpr ⟨?_, ih c h2 (Nat.le_of_not_lt h)⟩
      intro b hb
      rcases (mem_addTimerFrom t cs c b).mp hb with hbt | hbm
      · subst hbt; exact hle
      · exact h1 b hbm

theorem sorted_addTimer (t : Timer) (l : List Timer) (hs : SortedTimers l) :
    SortedTimers (AddTimer t l) := by
  cases l with
  | nil => exact List.pairwise_singleton _ _
  | cons h rest =>
    simp only [AddTimer]
    split_ifs with hlt
    · refine List.pairwise_cons.mpr ⟨?_, hs⟩
      intro b hb
      rcases List.mem_cons.mp hb with hbe | hbm
      · subst hbe; exact Nat.le_of_lt hlt
      · exact Nat.le_trans (Nat.le_of_lt hlt) ((List.pairwise_cons.mp hs).1 b hbm)
    · exact sorted_addTimerFrom t rest h hs (Nat.le_of_not_lt hlt)

theorem sorted_adjustTimer (pre : List Timer) (told t : Timer) (post : List Timer)
    (hs : SortedTimers (pre ++ told :: post)) (hinc : told.expire ≤ t.expire) :
    SortedTimers (AdjustTimer pre t post) := by
  rw [SortedTimers, List.pairwise_append] at hs
  obtain ⟨hpre, hpost, hcross⟩ := hs
  have htold := (List.pairwise_cons.mp hpost).1
  have hpost2 := (List.pairwise_cons.mp hpost).2
  cases post with
  | nil =>
    simp only [AdjustTimer]
    rw [SortedTimers, List.pairwise_append]
    refine ⟨hpre, List.pairwise_singleton _ _, ?_⟩
    intro a ha b hb
    rw [List.mem_singleton] at hb
    subst hb
    exact Nat.le_trans (hcross a ha told (List.mem_cons_self _ _)) hinc
  | cons n rest =>
    have hn1 := (List.pairwise_cons.mp hpost2).1
    simp only [AdjustTimer]
    split_ifs with hlt
    · rw [SortedTimers, List.pairwise_append]
      refine ⟨hpre, ?_, ?_⟩
      · refine List.pairwise_cons.mpr ⟨?_, hpost2⟩
        intro b hb
        rcases List.mem_cons.mp hb with hbn | hbm
        · subst hbn; exact Nat.le_of_lt hlt
        · exact Nat.le_trans (Nat.le_of_lt hlt) (hn1 b hbm)
      · intro a ha b hb
        rcases List.mem_cons.mp hb with hbt | hbm
        · subst hbt
          exact Nat.le_trans (hcross a ha told (List.mem_cons_self _ _)) hinc
        · exact hcross a ha b (List.mem_cons_of_mem _ hbm)
    · rw [SortedTimers, List.pairwise_append]
      refine ⟨hpre, sorted_addTimerFrom t rest n hpost2 (Nat.le_of_not_lt hlt), ?_⟩
      intro a ha b hb
      rcases (mem_addTimerFrom t rest n b).mp hb with hbt | hbm
      · subst hbt
        exact Nat.le_trans (hcross a ha told (List.mem_cons_self _ _)) hinc
      · exact hcross a ha b (List.mem_cons_of_mem _ hbm)

theorem sorted_deleteTimer (pre : List Timer) (t : Timer) (post : List Timer)
    (hs : SortedTimers (pre ++ t :: post)) : SortedTimers (DeleteTimer pre post) := by
  have hsub : (pre ++ post).Sublist (pre ++ t :: post) :=
    (List.sublist_cons_self t post).append_left pre
  exact List.Pairwise.sublist hsub hs

theorem sorted_tick (now : Nat) (l : List Timer) (hs : SortedTimers l) :
    SortedTimers (Tick now l) :=
  List.Pairwise.sublist (List.dropWhile_sublist _) hs

/-- C9: the timer list stays sorted ascending by expiry: `AddTimer`,
`AdjustTimer` (for a node whose expiry was increased), `DeleteTimer` and
`Tick` each preserve sortedness.  The node being adjusted or deleted is
identified by decomposing the list as `pre ++ node :: post`; in
`AdjustTimer` the node already carries the increased expiry `t` while
sortedness is assumed of the list with the old value `told`. -/
theorem claim9_timer_list_sorted :
    (∀ (t : Timer) (l : List Timer), SortedTimers l → SortedTimers (AddTimer t l)) ∧
    (∀ (pre : List Timer) (told t : Timer) (post : List Timer),
      SortedTimers (pre ++ told :: post) → told.expire ≤ t.expire →
      SortedTimers (AdjustTimer pre t post)) ∧
    (∀ (pre : List Timer) (t : Timer) (post : List Timer),
      SortedTimers (pre ++ t :: post) → SortedTimers (DeleteTimer pre post)) ∧
    (∀ (now : Nat) (l : List Timer), SortedTimers l → SortedTimers (Tick now l)) :=
  ⟨sorted_addTimer, sorted_adjustTimer, sorted_deleteTimer, sorted_tick⟩

/-- C9 witness: the four operations applied at concrete sorted lists. -/
theorem claim9_witness :
    SortedTimers (AddTimer ⟨3, 10⟩ [⟨1, 0⟩, ⟨2, 1⟩, ⟨5, 2⟩]) ∧
    SortedTimers (AdjustTimer [⟨1, 0⟩] ⟨6, 1⟩ [⟨4, 2⟩, ⟨7, 3⟩]) ∧
    SortedTimers (DeleteTimer [⟨1, 0⟩] [⟨4, 2⟩]) ∧
    SortedTimers (Tick 3 [⟨1, 0⟩, ⟨4, 2⟩]) := by
  refine ⟨?_, ?_, ?_, ?_⟩
  · exact claim9_timer_list_sorted.1 ⟨3, 10⟩ _ (by decide)
  · exact claim9_timer_list_sorted.2.1 [⟨1, 0⟩] ⟨2, 1⟩ ⟨6, 1⟩ [⟨4, 2⟩, ⟨7, 3⟩]
      (by decide) (by decide)
  · exact claim9_timer_list_sorted.2.2.1 [⟨1, 0⟩] ⟨2, 1⟩ [⟨4, 2⟩] (by decide)
  · exact claim9_timer_list_sorted.2.2.2 3 _ (by decide)

end TinyWebServer
